import Mathlib

/-!
Verification development for the CHECLabPy core io streaming write/read
subsystem (src/CHECLabPy/core/io.py).

The Python source is shallowly embedded as executable Lean definitions:

* Timestamps (pandas Timestamp, nanosecond precision) and time deltas
  (pandas Timedelta) are modelled as `Int` nanosecond values.
* The `MonitorWriter` state machine of `match_to_data_events` is modelled as
  explicit state passing over `AlignState`; the `while` loop is modelled by a
  fuel-indexed structural recursion whose fuel (`remaining.length + 1`) is
  sufficient, because each loop iteration either consumes one element of the
  unread monitor-event stream or sets the end-of-file flag (which ends the
  loop).
* The lazy generator `_get_next_monitor_event` is modelled as a pure step
  function over the list of log lines, each line being a `List Char`.
* DataFrames are modelled as a column-name list plus row-major cells; a cell
  is `Option Int` (`none` models NaN / a missing value).

The file lists all definitions first, followed by all theorems.
-/

deriving instance DecidableEq for Except

namespace CHECLabPy

/-! ### Definitions -/

structure MonBatch where
  imon : Nat
  t : Int
  samples : List (Int × List Char × (Int × Nat))
  deriving DecidableEq, Repr

/-- Source: `self.n_modules = 32` in `MonitorWriter.__init__`. -/
def n_modules : Nat := 32

/-- Source: `self.n_tmpix = 64` in `MonitorWriter.__init__`. -/
def n_tmpix : Nat := 64

/-- A copy of `empty_df` stamped with a cycle index and timestamp: all
telemetry readings are NaN, i.e. no samples. -/
def emptyBatch (imon : Nat) (t : Int) : MonBatch :=
  { imon := imon, t := t, samples := [] }

/-- The mutable alignment state of `MonitorWriter`:
`monitor_ev`, `next_monitor_ev`, the unread suffix of the monitor-event
iterator, the `df_list` buffer fed by `append_monitor_event` (the generator
appends every yielded batch to it, and the `aeof` branch appends the
synthetic terminal batch), `eof`, `aeof` and `t_delta_max`. -/
structure AlignState where
  monitor_ev : MonBatch
  next_monitor_ev : MonBatch
  remaining : List MonBatch
  buffer : List MonBatch
  eof : Bool
  aeof : Bool
  t_delta_max : Int
  deriving DecidableEq, Repr

/-- State established by `MonitorWriter.__init__` lines 226-231 when the
generator yields the batch `b` first and `rest` afterwards:
`monitor_ev = next(it)` (the generator appended `b` to the buffer at its
yield), `next_monitor_ev = monitor_ev.copy()`, `eof = aeof = False`,
`t_delta_max = Timedelta(0)`. -/
def initAlign (b : MonBatch) (rest : List MonBatch) : AlignState :=
  { monitor_ev := b, next_monitor_ev := b, remaining := rest,
    buffer := [b], eof := false, aeof := false, t_delta_max := 0 }

/-- Monitor batches as produced by the generator for given cycle timestamps:
the cycle index counter `imon` starts at `i` and increments per yield. -/
def mkBatchesFrom (i : Nat) : List Int → List MonBatch
  | [] => []
  | t :: ts => emptyBatch i t :: mkBatchesFrom (i + 1) ts

/-- Monitor batches with cycle indices `0, 1, 2, ...` at the given cycle
timestamps, as yielded by `_get_next_monitor_event`. -/
def mkBatches (ts : List Int) : List MonBatch :=
  mkBatchesFrom 0 ts

/-- The `while (t_cpu_data > t_cpu_next_monitor) and not self.eof` loop of
`match_to_data_events` (lines 294-307).  One iteration copies
`next_monitor_ev` into `monitor_ev` and pulls the next monitor event; on
`StopIteration` it sets `eof` and synthesizes
`next_monitor_ev = empty_df` with `imon + 1` and `t_cpu + t_delta_max`
taken from the (just updated) `monitor_ev`, after which the loop condition
`not self.eof` fails.  Fuel `remaining.length + 1` always suffices. -/
def advanceLoopF (t_cpu_data : Int) : Nat → AlignState → AlignState
  | 0, st => st
  | fuel + 1, st =>
    if t_cpu_data > st.next_monitor_ev.t ∧ st.eof = false then
      match st.remaining with
      | [] =>
        { st with
          monitor_ev := st.next_monitor_ev,
          eof := true,
          next_monitor_ev :=
            emptyBatch (st.next_monitor_ev.imon + 1)
              (st.next_monitor_ev.t + st.t_delta_max) }
      | b :: rest =>
        advanceLoopF t_cpu_data fuel
          { st with
            monitor_ev := st.next_monitor_ev,
            next_monitor_ev := b,
            remaining := rest,
            buffer := st.buffer ++ [b] }
    else st

/-- Lines 290-291: `if self.t_delta_max < t_cpu_next_monitor - t_cpu_data:
self.t_delta_max = t_cpu_next_monitor - t_cpu_data`. -/
def updateTdm (t_cpu_data : Int) (st : AlignState) : AlignState :=
  if st.t_delta_max < st.next_monitor_ev.t - t_cpu_data then
    { st with t_delta_max := st.next_monitor_ev.t - t_cpu_data }
  else st

/-- Lines 308-314: once at end of monitor events, if the data event is
still later than the synthesized lookahead and the terminal batch has not
been appended yet, make the synthesized batch current, append it to the
monitor `df_list` via `append_monitor_event`, and set `aeof`. -/
def tailEmit (t_cpu_data : Int) (st : AlignState) : AlignState :=
  if st.eof = true ∧ t_cpu_data > st.next_monitor_ev.t ∧ st.aeof = false
  then
    { st with
      monitor_ev := st.next_monitor_ev,
      buffer := st.buffer ++ [st.next_monitor_ev],
      aeof := true }
  else st

/-- Source: `MonitorWriter.match_to_data_events` (lines 287-318) for a data event
batch with timestamp `t_cpu_data` (all records of `data_ev` share
`t_cpu`).  Returns the new state together with the `imon` watermark used
for the `monitor_index` column of the data records. -/
def match_to_data_events (t_cpu_data : Int) (st : AlignState) :
    AlignState × Nat :=
  let st1 := updateTdm t_cpu_data st
  let st2 := advanceLoopF t_cpu_data (st1.remaining.length + 1) st1
  let st3 := tailEmit t_cpu_data st2
  (st3, st3.monitor_ev.imon)

/-- The `monitor_index` value written onto the data record of pixel `pixel`
(line 317-318): `imon * n_modules + pixel // n_tmpix`. -/
def monitor_index (imon : Nat) (pixel : Nat) : Nat :=
  imon * n_modules + pixel / n_tmpix

/-- Successive calls of `match_to_data_events`, one per data event batch,
in arrival order; returns the list of assigned `imon` watermarks. -/
def runMatches : List Int → AlignState → List Nat × AlignState
  | [], st => ([], st)
  | t :: ts, st =>
    let p := match_to_data_events t st
    let q := runMatches ts p.1
    (p.2 :: q.1, q.2)

/-- Invariant of the alignment state: the cycle index of `monitor_ev` never
exceeds that of `next_monitor_ev`, and the unread monitor events have
non-decreasing cycle indices continuing from `next_monitor_ev`. -/
def WFAlign (st : AlignState) : Prop :=
  st.monitor_ev.imon ≤ st.next_monitor_ev.imon ∧
    List.Chain (fun a b => a.imon ≤ b.imon) st.next_monitor_ev st.remaining

/-- Timestamp deltas between consecutive batches of a list. -/
def consecGaps : List MonBatch → List Int
  | a :: b :: r => (b.t - a.t) :: consecGaps (b :: r)
  | _ => []

/-- Modelled from the spec: the largest timestamp delta ever observed
between consecutive real monitor cycles seen so far (the batches pulled
from the telemetry stream, in order). -/
def specMaxGapSeen (observed : List MonBatch) : Int :=
  (consecGaps observed).foldl max 0

/-- Source: `self.supported` of `MonitorWriter.__init__`. -/
def supportedKeys : List (List Char) :=
  ["TM_T_PRI".data, "TM_T_AUX".data, "TM_T_PSU".data, "TM_T_SIPM".data]

/-- The cycle terminator pattern searched with `in` on the raw line. -/
def medPattern : List Char := "Monitoring Event Done".data

def isPrefixB : List Char → List Char → Bool
  | [], _ => true
  | _ :: _, [] => false
  | a :: as, b :: bs => a == b && isPrefixB as bs

/-- Python substring containment `needle in hay`. -/
def hasSub (needle : List Char) : List Char → Bool
  | [] => isPrefixB needle []
  | c :: rest => isPrefixB needle (c :: rest) || hasSub needle rest

def digitVal? (c : Char) : Option Nat :=
  if c = '0' then some 0 else if c = '1' then some 1
  else if c = '2' then some 2 else if c = '3' then some 3
  else if c = '4' then some 4 else if c = '5' then some 5
  else if c = '6' then some 6 else if c = '7' then some 7
  else if c = '8' then some 8 else if c = '9' then some 9 else none

def digitsNatAux? : Nat → List Char → Option Nat
  | acc, [] => some acc
  | acc, c :: rest =>
    match digitVal? c with
    | none => none
    | some d => digitsNatAux? (acc * 10 + d) rest

/-- A non-empty all-digit string as a natural number. -/
def digitsNat? : List Char → Option Nat
  | [] => none
  | l => digitsNatAux? 0 l

/-- Python `int(s)` on decimal literals (line 269, `int(data[4])`). -/
def parseIntPy? (l : List Char) : Option Int :=
  match l with
  | '-' :: rest => (digitsNat? rest).map (fun n => -(n : Int))
  | '+' :: rest => (digitsNat? rest).map (fun n => (n : Int))
  | _ => (digitsNat? l).map (fun n => (n : Int))

def parseUFloat? (l : List Char) : Option (Int × Nat) :=
  match l.splitOn '.' with
  | [ip] => (digitsNat? ip).map (fun n => ((n : Int), 0))
  | [ip, fp] =>
    match ip, fp with
    | [], [] => none
    | [], _ :: _ => (digitsNat? fp).map (fun f => ((f : Int), fp.length))
    | _ :: _, [] => (digitsNat? ip).map (fun n => ((n : Int), 0))
    | _ :: _, _ :: _ =>
      match digitsNat? ip, digitsNat? fp with
      | some n, some f =>
        some (((n : Int) * 10 ^ fp.length + (f : Int)), fp.length)
      | _, _ => none
  | _ => none

/-- Python `float(s)` on decimal literals (line 270, `float(data[5])`);
the value is kept as `(scaled mantissa, fraction digit count)`. -/
def parseFloatPy? (l : List Char) : Option (Int × Nat) :=
  match l with
  | '-' :: rest => (parseUFloat? rest).map (fun p => (-p.1, p.2))
  | '+' :: rest => parseUFloat? rest
  | _ => parseUFloat? l

/-- Lexicographic nanosecond encoding of a calendar datetime; exact at
sub-day granularity (hour, minute, second, microsecond are real time
units), strictly monotone in every field. -/
def tsEncode (y mo da h mi s us : Nat) : Int :=
  (((((y * 13 + mo) * 32 + da) * 86400 + h * 3600 + mi * 60 + s) * 1000000
      + us) * 1000 : Nat)

/-- Source: `pd.to_datetime(data[0] ++ " " ++ data[1], format="%Y-%m-%d %H:%M:%S:%f")`
(lines 244-247): `none` models the `ValueError` raised on a format
mismatch.  `%f` reads 1 to 6 digits, zero-padded on the right to
microseconds. -/
def parse_to_datetime? (d t : List Char) : Option Int :=
  match d.splitOn '-', t.splitOn ':' with
  | [ys, ms, ds], [hs, mins, ss, fs] =>
    match digitsNat? ys, digitsNat? ms, digitsNat? ds, digitsNat? hs,
        digitsNat? mins, digitsNat? ss, digitsNat? fs with
    | some y, some mo, some da, some h, some mi, some s, some f =>
      if 1 ≤ mo ∧ mo ≤ 12 ∧ 1 ≤ da ∧ da ≤ 31 ∧ h ≤ 23 ∧ mi ≤ 59 ∧ s ≤ 59
          ∧ 1 ≤ fs.length ∧ fs.length ≤ 6 then
        some (tsEncode y mo da h mi s (f * 10 ^ (6 - fs.length)))
      else none
    | _, _, _, _, _, _, _ => none
  | _, _ => none

/-- Source: `pd.Timedelta(1, unit='h')` in nanoseconds (line 249). -/
def hourNs : Int := 3600 * 1000000000

/-- The generator-local state of `_get_next_monitor_event`: the cycle
counter `imon`, the running `t_cpu` (initially the int 0), `start_time`
(Python falsy 0 modelled as `none`), and the writes so far into the
in-progress `empty_df` copy. -/
structure PState where
  imon : Nat
  t_cpu : Int
  start_time : Option Int
  cur : List (Int × List Char × (Int × Nat))
  deriving DecidableEq, Repr

def pInit : PState := { imon := 0, t_cpu := 0, start_time := none, cur := [] }

/-- Lines 265-272: a candidate sample line with fields `data[2:]` given by
`rest`; the key `device + "_" + measurement` is recorded at row
`device_id` when supported and both values parse, the line is otherwise
skipped (the `ValueError` from `int`/`float` is caught on line 274). -/
def sampleWrite (st : PState) : List (List Char) → PState
  | d2 :: d3 :: d4 :: d5 :: _ =>
    if (d2 ++ ('_' :: d3)) ∈ supportedKeys then
      match parseIntPy? d4, parseFloatPy? d5 with
      | some did, some v =>
        { st with cur := st.cur ++ [(did, d2 ++ ('_' :: d3), v)] }
      | _, _ => st
    else st
  | _ => st

/-- One iteration of the `for line in file` loop (lines 239-275).  The
result is the new generator state plus the batch yielded by this line, if
any.  `.error` models an exception that escapes the `except ValueError`
handler and aborts the generator: `data[1]` raises `IndexError` whenever
the newline-stripped line splits into fewer than two fields. -/
def stepLine (st : PState) (line : List Char) :
    Except (List Char) (PState × Option MonBatch) :=
  if line = [] then .ok (st, none)
  else
    match (line.filter (fun c => c != '\n')).splitOn ' ' with
    | [] => .ok (st, none)
    | [_] => .error line
    | d0 :: d1 :: rest =>
      match parse_to_datetime? d0 d1 with
      | none => .ok (st, none)
      | some traw =>
        let t_cpu := traw - hourNs
        if hasSub medPattern line then
          .ok
            ({ st with
                imon := st.imon + 1
                t_cpu := t_cpu
                start_time := some (st.start_time.getD t_cpu)
                cur := [] },
              some { imon := st.imon, t := t_cpu, samples := st.cur })
        else if rest.length + 2 < 6 then .ok ({ st with t_cpu := t_cpu }, none)
        else .ok (sampleWrite { st with t_cpu := t_cpu } rest, none)

/-- Driving the generator over all lines, collecting every yielded batch.
This is what a complete run observes: `match_to_data_events` pulls batches
one at a time and `finish` drains the rest. -/
def runLines : PState → List (List Char) →
    Except (List Char) (PState × List MonBatch)
  | st, [] => .ok (st, [])
  | st, l :: ls =>
    match stepLine st l with
    | .error e => .error e
    | .ok (st', ob) =>
      match runLines st' ls with
      | .error e => .error e
      | .ok (st'', bs) => .ok (st'', ob.toList ++ bs)

/-- One lazy `next()` on the generator: consume lines until a batch is
yielded; `.ok none` is `StopIteration`. -/
def pullNext : PState → List (List Char) →
    Except (List Char) (Option (MonBatch × PState × List (List Char)))
  | _, [] => .ok none
  | st, l :: ls =>
    match stepLine st l with
    | .error e => .error e
    | .ok (st', some b) => .ok (some (b, st', ls))
    | .ok (st', none) => pullNext st' ls

def exceptOk {ε α : Type} : Except ε α → Bool
  | .ok _ => true
  | .error _ => false

/-- The datetime written in a log line, as `pd.to_datetime` reads it from
the first two space-separated fields, before any shift. -/
def rawLineDatetime? (line : List Char) : Option Int :=
  match (line.filter (fun c => c != '\n')).splitOn ' ' with
  | d0 :: d1 :: _ => parse_to_datetime? d0 d1
  | _ => none

inductive MWErr where
  | fileNotFound : MWErr
  | uncaughtLine : List Char → MWErr
  | noMonitorEvents : MWErr
  deriving DecidableEq, Repr

/-- Source: `MonitorWriter.__init__` (lines 190-231) against a file system mapping
paths to line lists.  Line 196-198 constructs `FileNotFoundError(...)`
without `raise`, so the existence check itself has no effect; the missing
file nevertheless fails the construction, because the generator body runs
`open(monitor_path)` when line 228 performs the first `next()`, and that
`FileNotFoundError` propagates (it is not a `StopIteration`).  A file with
no monitor events makes the first `next()` end in `StopIteration`, turned
into `IOError("No monitor events found")`.  On success the writer holds
`monitor_ev` (with `next_monitor_ev` its copy), the generator state and
the unread lines. -/
def monitor_writer_init (fs : List (String × List (List Char)))
    (monitor_path : String) :
    Except MWErr (MonBatch × PState × List (List Char)) :=
  match fs.lookup monitor_path with
  | none => .error .fileNotFound
  | some lines =>
    match pullNext pInit lines with
    | .error l => .error (.uncaughtLine l)
    | .ok none => .error .noMonitorEvents
    | .ok (some (b, st, rest)) => .ok (b, st, rest)

structure PDF where
  cols : List String
  rows : List (List (Option Int))
  deriving DecidableEq, Repr

/-- The cell of a row at a named column; `none` when the column is absent
(a missing column reads as NaN). -/
def getCellRow (cols : List String) (row : List (Option Int))
    (c : String) : Option Int :=
  match List.findIdx? (fun x => x == c) cols with
  | some i => row.getD i none
  | none => none

/-- Align the rows of `d` to a target column layout, filling NaN for
columns absent from `d`; the identity when the layouts already agree. -/
def reindexRows (target : List String) (d : PDF) :
    List (List (Option Int)) :=
  if d.cols = target then d.rows
  else d.rows.map (fun row => target.map (fun c => getCellRow d.cols row c))

def addNewCols (acc : List String) : List String → List String
  | [] => acc
  | c :: cs => if c ∈ acc then addNewCols acc cs else addNewCols (acc ++ [c]) cs

/-- The column union formed by `pd.concat`: the first frame's columns,
then the others' new columns in order of first appearance. -/
def unionCols : List PDF → List String
  | [] => []
  | d :: ds => ds.foldl (fun acc e => addNewCols acc e.cols) d.cols

/-- Source: `pd.concat(df_list, ignore_index=True)` (lines 119 and 322): rows are
concatenated; columns missing from a constituent frame are filled NaN. -/
def concatPDF (l : List PDF) : PDF :=
  { cols := unionCols l,
    rows := (l.map (fun d => reindexRows (unionCols l) d)).flatten }

/-- Source: `default_c` of `DL1Writer._append_to_file` (lines 121-136).  In the
Python source the literal `'tr'` on line 127 is not followed by a comma,
so it concatenates with the adjacent literal `'baseline_start_mean'` into
the single element `"trbaseline_start_mean"`: the list has 13 elements,
and neither `"tr"` nor `"baseline_start_mean"` is among them. -/
def default_c : List String :=
  ["t_event", "t_pulse", "amp_pulse", "charge", "fwhm",
    "tr" ++ "baseline_start_mean",
    "baseline_start_rms", "baseline_end_mean", "baseline_end_rms",
    "baseline_subtracted", "waveform_mean", "waveform_rms",
    "saturation_coeff"]

/-- Source: `df[column] = 0.` for a new column: appended after the existing ones,
the value broadcast to every row. -/
def addCol (d : PDF) (c : String) (v : Option Int) : PDF :=
  { cols := d.cols ++ [c], rows := d.rows.map (fun r => r ++ [v]) }

/-- Lines 137-139: `for column in default_c: if column not in df:
df[column] = 0.` -/
def backfillDefaults (d : PDF) : PDF :=
  default_c.foldl (fun acc c => if c ∈ acc.cols then acc else addCol acc c (some 0)) d

/-- Lines 141-144: `pd.to_numeric(downcast='float')` narrows float64
columns; cell values are exact in this model, so the narrowing preserves
them. -/
def downcastFloats (d : PDF) : PDF := d

/-- Source: `df[c] = df[c].astype(uintW)` (lines 145-149): the column values wrap
modulo `2^w`.  (On a frame lacking the column pandas would raise
`KeyError`; the writer only flushes frames carrying the required columns,
and the claims below only exercise such frames.) -/
def astype (d : PDF) (c : String) (w : Nat) : PDF :=
  match List.findIdx? (fun x => x == c) d.cols with
  | none => d
  | some i =>
    { cols := d.cols,
      rows := d.rows.map (fun r =>
        r.set i ((r.getD i none).map (fun v => v % ((2 : Int) ^ w)))) }

/-- The `(iev, pixel)` sort key of a row; an absent or NaN key cell reads
as 0 in this model (the rows the writer flushes always carry integer
keys). -/
def rowKey (cols : List String) (row : List (Option Int)) : Int × Int :=
  ((getCellRow cols row "iev").getD 0, (getCellRow cols row "pixel").getD 0)

def rowLe (cols : List String) (r1 r2 : List (Option Int)) : Prop :=
  (rowKey cols r1).1 < (rowKey cols r2).1 ∨
    ((rowKey cols r1).1 = (rowKey cols r2).1 ∧
      (rowKey cols r1).2 ≤ (rowKey cols r2).2)

instance rowLeDec (cols : List String) : DecidableRel (rowLe cols) :=
  fun r1 r2 => by unfold rowLe; exact inferInstance

/-- Source: `df.sort_values(["iev", "pixel"])` (line 151): a deterministic sort by
the lexicographic `(iev, pixel)` key, modelled as insertion sort. -/
def sort_values (d : PDF) : PDF :=
  { cols := d.cols, rows := List.insertionSort (rowLe d.cols) d.rows }

/-- The whole per-flush frame transformation of `_append_to_file`
(lines 119-151): concat happens before, then back-fill, float downcast,
integer coercions, sort. -/
def processDF (d : PDF) : PDF :=
  sort_values
    (astype
      (astype
        (astype (astype (astype (downcastFloats (backfillDefaults d)) "iev" 32)
          "pixel" 32) "first_cell_id" 16)
        "t_tack" 64)
      "t_event" 16)

/-- Source: `self.store.append('data', df, ...)` (line 152): the on-disk table is
extended by the flushed rows; later appends align to the layout the table
was created with. -/
def storeAppend (store : Option PDF) (d : PDF) : Option PDF :=
  match store with
  | none => some d
  | some a => some { cols := a.cols, rows := a.rows ++ reindexRows a.cols d }

/-- Source: `df.memory_usage(index=True, deep=True).sum()`: 128 bytes of
RangeIndex plus 8 bytes per cell. -/
def memory_usage (d : PDF) : Nat :=
  128 + 8 * d.cols.length * d.rows.length

/-- The buffer-related state of `DL1Writer` (monitor matching disabled,
`monitor_path=None`): `df_list`, its byte estimate, the on-disk "data"
table, and the cumulative flushed byte count. -/
structure WState where
  df_list : List PDF
  df_list_n_bytes : Nat
  storeData : Option PDF
  n_bytes : Nat
  deriving DecidableEq, Repr

/-- Buffer state left by `DL1Writer.__init__` (lines 97-101). -/
def dl1_init_buffer : WState :=
  { df_list := [], df_list_n_bytes := 0, storeData := none, n_bytes := 0 }

/-- Source: `DL1Writer._append_to_file` (lines 117-156). -/
def _append_to_file (w : WState) : WState :=
  if w.df_list = [] then w
  else
    { df_list := [], df_list_n_bytes := 0,
      storeData := storeAppend w.storeData (processDF (concatPDF w.df_list)),
      n_bytes := w.n_bytes + memory_usage (processDF (concatPDF w.df_list)) }

/-- Source: `DL1Writer.append_event` (lines 158-164), with no monitor writer
attached: buffer the frame, update the byte estimate, flush at the 0.5E9
threshold. -/
def append_event (w : WState) (df_ev : PDF) : WState :=
  let w1 :=
    { w with
        df_list := w.df_list ++ [df_ev]
        df_list_n_bytes := w.df_list_n_bytes + memory_usage df_ev }
  if 500000000 ≤ w1.df_list_n_bytes then _append_to_file w1 else w1

/-- Source: `DL1Writer.finish` (lines 173-181): the final flush.  The metadata
write and store close that follow do not change the table contents. -/
def finish (w : WState) : WState := _append_to_file w

def runAppends (chunks : List PDF) : WState :=
  chunks.foldl append_event dl1_init_buffer

/-- The "data" table contents on disk after appending the given event
frames and closing the writer. -/
def diskAfterClose (chunks : List PDF) : Option PDF :=
  (finish (runAppends chunks)).storeData

def c18 : List String :=
  ["iev", "pixel", "first_cell_id", "t_tack", "t_cpu",
    "t_event", "t_pulse", "amp_pulse", "charge", "fwhm",
    "trbaseline_start_mean", "baseline_start_rms", "baseline_end_mean",
    "baseline_end_rms", "baseline_subtracted", "waveform_mean",
    "waveform_rms", "saturation_coeff"]

def procRow (r : List (Option Int)) : List (Option Int) :=
  let r1 := r ++ [some 0, some 0, some 0, some 0, some 0,
    some 0, some 0, some 0, some 0, some 0, some 0, some 0, some 0]
  let r2 := r1.set 0 ((r1.getD 0 none).map (fun v => v % ((2 : Int) ^ 32)))
  let r3 := r2.set 1 ((r2.getD 1 none).map (fun v => v % ((2 : Int) ^ 32)))
  let r4 := r3.set 2 ((r3.getD 2 none).map (fun v => v % ((2 : Int) ^ 16)))
  let r5 := r4.set 3 ((r4.getD 3 none).map (fun v => v % ((2 : Int) ^ 64)))
  r5.set 5 ((r5.getD 5 none).map (fun v => v % ((2 : Int) ^ 16)))

def c7cols : List String := ["iev", "pixel", "first_cell_id", "t_tack", "t_cpu"]

def c7rowA : List (Option Int) := [some 1, some 0, some 0, some 0, some 0]

def c7rowB : List (Option Int) := [some 0, some 0, some 0, some 0, some 0]

def c7dfA : PDF := ⟨c7cols, List.replicate 12500000 c7rowA⟩

def c7dfB : PDF := ⟨c7cols, [c7rowB]⟩

def c7dfAB : PDF := ⟨c7cols, List.replicate 12500000 c7rowA ++ [c7rowB]⟩

/-- An HDF5 file system: paths mapped to stores, a store being its named
tables with their row contents. -/
def dl1writer_open (fs : List (String × List (String × PDF)))
    (dl1_path : String) : List (String × List (String × PDF)) :=
  let fs1 :=
    if (fs.lookup dl1_path).isSome
    then fs.filter (fun p => !(p.1 == dl1_path)) else fs
  (dl1_path, []) :: fs1

/-- A finished table as `HDFStoreReader` sees it: the on-disk rows and the
`n_bytes` value recorded in the metadata attribute at finalize time. -/
structure RTable where
  rows : List (List (Option Int))
  n_bytes : Int
  deriving DecidableEq, Repr

/-- Source: `HDFStoreReader.load_entire_table` (lines 389-411): `MemoryError` when
the recorded byte count exceeds 8E9 and `force` is not set; otherwise the
whole table `store[key]`. -/
def load_entire_table (t : RTable) (force : Bool) :
    Except String (List (List (Option Int))) :=
  if t.n_bytes > 8000000000 ∧ force = false then .error "MemoryError"
  else .ok t.rows

/-- Source: `HDFStoreReader.n_rows` (line 383): `store.get_storer(key).nrows`, the
number of rows on disk. -/
def n_rows (t : RTable) : Nat := t.rows.length

/-- A table produced by a sequence of `store.append` calls: the rows are
the concatenation of the appended batches; `nb` is the byte count later
recorded in the metadata. -/
def tableFromAppends (batches : List (List (List (Option Int))))
    (nb : Int) : RTable :=
  { rows := batches.flatten, n_bytes := nb }

/-! ### Theorems -/

theorem advanceLoopF_wf (t : Int) :
    ∀ (fuel : Nat) (st : AlignState), WFAlign st →
      WFAlign (advanceLoopF t fuel st) ∧
        st.monitor_ev.imon ≤ (advanceLoopF t fuel st).monitor_ev.imon := by
  intro fuel
  induction fuel with
  | zero => intro st h; exact ⟨h, le_refl _⟩
  | succ n ih =>
    rintro ⟨mon, next, rem, buf, eo, ae, tdm⟩ ⟨h1, h2⟩
    rw [advanceLoopF]
    by_cases hc : t > next.t ∧ eo = false
    · rw [if_pos hc]
      cases rem with
      | nil =>
        dsimp only
        exact ⟨⟨Nat.le_succ _, List.Chain.nil⟩, h1⟩
      | cons b rest =>
        cases h2 with
        | cons hb hchain =>
          dsimp only
          have hres := ih ⟨next, b, rest, buf ++ [b], eo, ae, tdm⟩ ⟨hb, hchain⟩
          exact ⟨hres.1, le_trans h1 hres.2⟩
    · rw [if_neg hc]
      exact ⟨⟨h1, h2⟩, le_refl _⟩

theorem updateTdm_wf (t : Int) (st : AlignState) (h : WFAlign st) :
    WFAlign (updateTdm t st) ∧ (updateTdm t st).monitor_ev = st.monitor_ev ∧
      (updateTdm t st).remaining = st.remaining := by
  unfold updateTdm; split <;> exact ⟨h, rfl, rfl⟩

theorem tailEmit_wf (t : Int) (st : AlignState) (h : WFAlign st) :
    WFAlign (tailEmit t st) ∧
      st.monitor_ev.imon ≤ (tailEmit t st).monitor_ev.imon := by
  unfold tailEmit; split
  · exact ⟨⟨le_refl _, h.2⟩, h.1⟩
  · exact ⟨h, le_refl _⟩

theorem match_to_data_events_wf (t : Int) (st : AlignState) (h : WFAlign st) :
    WFAlign (match_to_data_events t st).1 ∧
      st.monitor_ev.imon ≤ (match_to_data_events t st).1.monitor_ev.imon ∧
      (match_to_data_events t st).2 =
        (match_to_data_events t st).1.monitor_ev.imon := by
  have h1 := updateTdm_wf t st h
  have h2 := advanceLoopF_wf t ((updateTdm t st).remaining.length + 1)
    (updateTdm t st) h1.1
  have h3 := tailEmit_wf t
    (advanceLoopF t ((updateTdm t st).remaining.length + 1) (updateTdm t st))
    h2.1
  refine ⟨h3.1, ?_, rfl⟩
  calc st.monitor_ev.imon
      = (updateTdm t st).monitor_ev.imon := by rw [h1.2.1]
    _ ≤ (advanceLoopF t ((updateTdm t st).remaining.length + 1)
          (updateTdm t st)).monitor_ev.imon := h2.2
    _ ≤ _ := h3.2

theorem runMatches_chain (ts : List Int) (st : AlignState) (h : WFAlign st) :
    List.Chain (· ≤ ·) st.monitor_ev.imon (runMatches ts st).1 := by
  induction ts generalizing st with
  | nil => exact List.Chain.nil
  | cons t ts ih =>
    have hw := match_to_data_events_wf t st h
    rw [runMatches]
    refine List.Chain.cons ?_ ?_
    · rw [hw.2.2]; exact hw.2.1
    · rw [hw.2.2]; exact ih _ hw.1

theorem chain'_of_chain {α : Type} {R : α → α → Prop} {a : α} {l : List α}
    (h : List.Chain R a l) : List.Chain' R l := by
  cases l with
  | nil => trivial
  | cons b bs => cases h with | cons h1 h2 => exact h2

theorem mkBatchesFrom_chain (i : Nat) (t : Int) (ts : List Int) :
    List.Chain (fun a b : MonBatch => a.imon ≤ b.imon) (emptyBatch i t)
      (mkBatchesFrom (i + 1) ts) := by
  induction ts generalizing i t with
  | nil => exact List.Chain.nil
  | cons u us ih =>
    exact List.Chain.cons (Nat.le_succ i) (ih (i + 1) u)

theorem wf_initAlign (t0 : Int) (mrest : List Int) :
    WFAlign (initAlign (emptyBatch 0 t0) (mkBatchesFrom 1 mrest)) :=
  ⟨le_refl _, mkBatchesFrom_chain 0 t0 mrest⟩

/-- C1: for every sequence of data event batches passed to
`match_to_data_events` with strictly increasing timestamps, starting from
the state built by `MonitorWriter.__init__` from a non-empty sequence of
parsed monitor events (cycle timestamps `t0 :: mrest`), the monitor index
written onto the records of each batch (for any fixed pixel) is
non-decreasing across successive calls: the watermark never regresses. -/
theorem c1_monitor_index_monotone (t0 : Int) (mrest : List Int)
    (dts : List Int) (hinc : List.Chain' (· < ·) dts) (pixel : Nat) :
    List.Chain' (· ≤ ·)
      (((runMatches dts
          (initAlign (emptyBatch 0 t0) (mkBatchesFrom 1 mrest))).1).map
        (fun im => monitor_index im pixel)) := by
  have hchain := runMatches_chain dts _ (wf_initAlign t0 mrest)
  have h' : List.Chain' (· ≤ ·)
      (runMatches dts (initAlign (emptyBatch 0 t0) (mkBatchesFrom 1 mrest))).1 :=
    chain'_of_chain hchain
  exact List.chain'_map_of_chain' (fun im => monitor_index im pixel)
    (fun a b hab => Nat.add_le_add_right (Nat.mul_le_mul_right _ hab) _) h'

/-- Witness for C1 at concrete inputs: monitor cycles at timestamps 0, 10,
data events at 5 and 15 (strictly increasing), pixel 7. -/
theorem c1_monitor_index_monotone_witness :
    List.Chain' (· < ·) [(5 : Int), 15] ∧
      List.Chain' (· ≤ ·)
        (((runMatches [5, 15]
            (initAlign (emptyBatch 0 0) (mkBatchesFrom 1 [10]))).1).map
          (fun im => monitor_index im 7)) :=
  ⟨List.Chain.cons (by norm_num) List.Chain.nil,
    c1_monitor_index_monotone 0 [10] [5, 15]
      (List.Chain.cons (by norm_num) List.Chain.nil) 7⟩

/-- C2 counterexample: with real monitor cycles at timestamps 0, 10, 20 and
a data event at timestamp 35, the aligner does NOT produce a synthetic
cycle at t=30 followed by a further synthetic cycle at t=40.  The buffer of
all monitor events ever appended (`append_monitor_event`) ends up with
timestamps `[0, 10, 20, 20]`: exactly one synthetic batch is created, at
timestamp `20 + t_delta_max = 20 + 0 = 20` (t_delta_max is not the cycle
gap 10), and no batch with timestamp 30 or 40 ever exists; the event is
assigned cycle index 3 through that single t=20 synthetic batch. -/
theorem c2_counterexample :
    (runMatches [35]
        (initAlign (emptyBatch 0 0) (mkBatchesFrom 1 [10, 20]))).1 = [3] ∧
      ((runMatches [35]
        (initAlign (emptyBatch 0 0) (mkBatchesFrom 1 [10, 20]))).2.buffer.map
          MonBatch.t = [0, 10, 20, 20]) ∧
      ((runMatches [35]
        (initAlign (emptyBatch 0 0) (mkBatchesFrom 1 [10, 20]))).2.next_monitor_ev
          = emptyBatch 3 20) ∧
      ((runMatches [35]
        (initAlign (emptyBatch 0 0) (mkBatchesFrom 1 [10, 20]))).2.monitor_ev
          = emptyBatch 3 20) := by
  decide

/-- C2 amended: once the telemetry stream is exhausted (`eof` set), the
advance loop never runs again, so exactly one lookahead batch is ever
synthesized — with cycle index `current.imon + 1` and timestamp
`current.t + t_delta_max` at the moment of exhaustion.  In the concrete
scenario of monitor cycles at 0, 10, 20 and one data event at 35 the single
synthetic batch has index 3 and timestamp 20 (`t_delta_max = 0` at that
point), is emitted once as the terminal batch, and the event is assigned
cycle index 3. -/
theorem c2_amended :
    (∀ (t : Int) (fuel : Nat) (st : AlignState), st.eof = true →
        advanceLoopF t fuel st = st) ∧
      runMatches [35] (initAlign (emptyBatch 0 0) (mkBatchesFrom 1 [10, 20]))
        = ([3],
          { monitor_ev := emptyBatch 3 20,
            next_monitor_ev := emptyBatch 3 20,
            remaining := [],
            buffer := [emptyBatch 0 0, emptyBatch 1 10, emptyBatch 2 20,
              emptyBatch 3 20],
            eof := true, aeof := true, t_delta_max := 0 }) := by
  constructor
  · intro t fuel st h
    cases fuel with
    | zero => rfl
    | succ n =>
      rw [advanceLoopF, if_neg]
      simp [h]
  · decide

/-- Witness for the universally quantified part of the amended C2. -/
theorem c2_amended_witness :
    advanceLoopF 99 5
        { monitor_ev := emptyBatch 0 0, next_monitor_ev := emptyBatch 1 10,
          remaining := [], buffer := [], eof := true, aeof := false,
          t_delta_max := 0 }
      = { monitor_ev := emptyBatch 0 0, next_monitor_ev := emptyBatch 1 10,
          remaining := [], buffer := [], eof := true, aeof := false,
          t_delta_max := 0 } :=
  c2_amended.1 99 5 _ rfl

/-- C3 counterexample: with real monitor cycles at timestamps 0 and 10,
after a single data event at timestamp 5 the aligner has pulled both real
cycles (they sit in the buffer), so the largest delta between consecutive
real cycles seen so far is 10; yet `t_delta_max` is 0, because the code
maximizes `next_monitor.t_cpu - data.t_cpu` at call entry rather than the
cycle-to-cycle gap. -/
theorem c3_counterexample :
    ((runMatches [5]
        (initAlign (emptyBatch 0 0) (mkBatchesFrom 1 [10]))).2.t_delta_max
      = 0) ∧
      (specMaxGapSeen
          (runMatches [5]
            (initAlign (emptyBatch 0 0) (mkBatchesFrom 1 [10]))).2.buffer
        = 10) ∧
      ((runMatches [5]
          (initAlign (emptyBatch 0 0) (mkBatchesFrom 1 [10]))).2.t_delta_max
        ≠ specMaxGapSeen
            (runMatches [5]
              (initAlign (emptyBatch 0 0) (mkBatchesFrom 1 [10]))).2.buffer) := by
  decide

theorem advanceLoopF_t_delta_max (t : Int) :
    ∀ (fuel : Nat) (st : AlignState),
      (advanceLoopF t fuel st).t_delta_max = st.t_delta_max := by
  intro fuel
  induction fuel with
  | zero => intro st; rfl
  | succ n ih =>
    rintro ⟨mon, next, rem, buf, eo, ae, tdm⟩
    rw [advanceLoopF]
    by_cases hc : t > next.t ∧ eo = false
    · rw [if_pos hc]
      cases rem with
      | nil => rfl
      | cons b rest => exact ih _
    · rw [if_neg hc]

theorem tailEmit_t_delta_max (t : Int) (st : AlignState) :
    (tailEmit t st).t_delta_max = st.t_delta_max := by
  unfold tailEmit; split <;> rfl

theorem updateTdm_t_delta_max (t : Int) (st : AlignState) :
    (updateTdm t st).t_delta_max
      = max st.t_delta_max (st.next_monitor_ev.t - t) := by
  unfold updateTdm
  split
  · next h => exact (max_eq_right (le_of_lt h)).symm
  · next h => exact (max_eq_left (not_lt.mp h)).symm

/-- C3 amended: after each `match_to_data_events` call, `t_delta_max` is
the maximum of its previous value and the delta between the lookahead
monitor timestamp at call entry and the data event timestamp — i.e. over a
run it is the largest value of `next_monitor.t_cpu - data.t_cpu` observed
at call entries (never negative, starting from 0), not the largest gap
between consecutive real monitor cycles. -/
theorem c3_amended (t : Int) (st : AlignState) :
    ((match_to_data_events t st).1).t_delta_max
      = max st.t_delta_max (st.next_monitor_ev.t - t) := by
  unfold match_to_data_events
  dsimp only
  rw [tailEmit_t_delta_max, advanceLoopF_t_delta_max, updateTdm_t_delta_max]

/-- C6 counterexample: a blank log line (the file iterator yields `"\n"`,
which is truthy) splits into a single empty field after newline removal,
so `data[1]` raises `IndexError`, which the `except ValueError` handler
does not catch: the monitor sequence terminates abnormally instead of
ignoring this non-terminator line with fewer than 6 fields. -/
theorem c6_counterexample :
    runLines pInit ["\n".data] = .error "\n".data := by decide

theorem stepLine_ok (st : PState) (l : List Char)
    (h : l ≠ [] → 2 ≤ ((l.filter (fun c => c != '\n')).splitOn ' ').length) :
    exceptOk (stepLine st l) = true := by
  unfold stepLine
  by_cases he : l = []
  · rw [if_pos he]; rfl
  · rw [if_neg he]
    have h2 := h he
    cases hd : (l.filter (fun c => c != '\n')).splitOn ' ' with
    | nil => rfl
    | cons d0 ds =>
      cases ds with
      | nil => rw [hd] at h2; simp at h2
      | cons d1 rest =>
        dsimp only
        rcases parse_to_datetime? d0 d1 with _ | traw
        · rfl
        · dsimp only
          repeat' split
          all_goals rfl

/-- C6 amended: a line failing value parsing (including an unparseable
datetime) is skipped, and a non-terminator line with at least 2 and fewer
than 6 space-separated fields is ignored, parsing continuing with the next
line in both cases; but a line with fewer than 2 space-separated fields
(after newline removal) raises an uncaught `IndexError` that terminates
the monitor sequence abnormally.  Hence the sequence completes normally on
every log whose non-empty lines all have at least 2 fields. -/
theorem c6_amended (lines : List (List Char)) (st : PState)
    (h : ∀ l ∈ lines, l ≠ [] →
      2 ≤ ((l.filter (fun c => c != '\n')).splitOn ' ').length) :
    exceptOk (runLines st lines) = true := by
  induction lines generalizing st with
  | nil => rfl
  | cons l ls ih =>
    rw [runLines]
    have h1 := stepLine_ok st l (h l (List.mem_cons_self l ls))
    cases hs : stepLine st l with
    | error e => rw [hs] at h1; simp [exceptOk] at h1
    | ok p =>
      obtain ⟨st', ob⟩ := p
      dsimp only
      have h2 := ih st' (fun x hx => h x (List.mem_cons_of_mem l hx))
      cases hr : runLines st' ls with
      | error e => rw [hr] at h2; simp [exceptOk] at h2
      | ok q =>
        obtain ⟨st'', bs⟩ := q
        rfl

/-- Witness for C6 amended: a well-formed sample line and a terminator. -/
theorem c6_amended_witness :
    exceptOk (runLines pInit
      ["0001-01-01 01:00:00:000000 TM T_PRI 3 25.5 x\n".data,
        "0001-01-01 01:00:01:000000 Monitoring Event Done\n".data]) = true :=
  c6_amended _ pInit (by decide)

theorem stepLine_emit (st : PState) (l : List Char) (st' : PState)
    (b : MonBatch) (h : stepLine st l = .ok (st', some b)) :
    hasSub medPattern l = true ∧
      ∃ traw, rawLineDatetime? l = some traw ∧ b.t = traw - hourNs := by
  unfold stepLine at h
  unfold rawLineDatetime?
  by_cases he : l = []
  · rw [if_pos he] at h; simp at h
  · rw [if_neg he] at h
    cases hd : (l.filter (fun c => c != '\n')).splitOn ' ' with
    | nil => rw [hd] at h; simp at h
    | cons d0 ds =>
      rw [hd] at h
      cases ds with
      | nil => simp at h
      | cons d1 rest =>
        dsimp only at h
        cases hp : parse_to_datetime? d0 d1 with
        | none => rw [hp] at h; simp at h
        | some traw =>
          rw [hp] at h
          dsimp only at h
          by_cases hm : hasSub medPattern l = true
          · rw [if_pos hm] at h
            simp only [Except.ok.injEq, Prod.mk.injEq, Option.some.injEq]
              at h
            refine ⟨hm, traw, ?_, ?_⟩
            · exact hp
            · rw [← h.2]
          · rw [if_neg hm] at h
            exfalso
            by_cases h6 : rest.length + 2 < 6
            · rw [if_pos h6] at h; simp at h
            · rw [if_neg h6] at h; simp at h

/-- C9: every monitor snapshot timestamp produced by the telemetry parser
equals the datetime written in its (terminator) log line minus one hour;
the shift `t_cpu -= Timedelta(1h)` is applied unconditionally on line 249
to every line that parses, cycle terminators included, and every emitted
batch timestamp is such a shifted terminator-line datetime. -/
theorem c9_monitor_timestamp_shift (lines : List (List Char)) :
    ∀ (st st' : PState) (bs : List MonBatch),
      runLines st lines = .ok (st', bs) →
      ∀ b ∈ bs, ∃ l ∈ lines, hasSub medPattern l = true ∧
        ∃ traw, rawLineDatetime? l = some traw ∧ b.t = traw - hourNs := by
  induction lines with
  | nil =>
    intro st st' bs h b hb
    rw [runLines] at h
    simp only [Except.ok.injEq, Prod.mk.injEq] at h
    rw [← h.2] at hb
    cases hb
  | cons l ls ih =>
    intro st st' bs h b hb
    rw [runLines] at h
    cases hs : stepLine st l with
    | error e => rw [hs] at h; simp at h
    | ok p =>
      rw [hs] at h
      obtain ⟨st1, ob⟩ := p
      dsimp only at h
      cases hr : runLines st1 ls with
      | error e => rw [hr] at h; simp at h
      | ok q =>
        rw [hr] at h
        obtain ⟨st2, bs2⟩ := q
        simp only [Except.ok.injEq, Prod.mk.injEq] at h
        rw [← h.2] at hb
        rcases List.mem_append.mp hb with hb1 | hb2
        · cases ob with
          | none => simp at hb1
          | some b0 =>
            simp only [Option.toList_some, List.mem_singleton] at hb1
            subst hb1
            have he := stepLine_emit st l st1 b hs
            exact ⟨l, List.mem_cons_self l ls, he.1, he.2⟩
        · obtain ⟨l', hl', hrest⟩ := ih st1 st2 bs2 hr b hb2
          exact ⟨l', List.mem_cons_of_mem l hl', hrest⟩

/-- Witness for C9 at a concrete one-line log. -/
theorem c9_monitor_timestamp_shift_witness :
    ∃ l ∈ ["0001-01-01 01:00:00:000000 Monitoring Event Done\n".data],
      hasSub medPattern l = true ∧
        ∃ traw, rawLineDatetime? l = some traw ∧
          (38793600000000000 : Int) = traw - hourNs :=
  c9_monitor_timestamp_shift
    ["0001-01-01 01:00:00:000000 Monitoring Event Done\n".data]
    pInit
    { imon := 1, t_cpu := 38793600000000000,
      start_time := some 38793600000000000, cur := [] }
    [{ imon := 0, t := 38793600000000000, samples := [] }]
    (by decide)
    { imon := 0, t := 38793600000000000, samples := [] }
    (by decide)

/-- C4: constructing the monitor writer with a telemetry-log path that does
not exist fails with an IO error surfaced to the caller — the construction
does not proceed as if the file were readable. -/
theorem c4_missing_monitor_file (fs : List (String × List (List Char)))
    (monitor_path : String) (h : fs.lookup monitor_path = none) :
    monitor_writer_init fs monitor_path = .error .fileNotFound := by
  unfold monitor_writer_init
  rw [h]

/-- Witness for C4: an empty file system and a concrete path. -/
theorem c4_missing_monitor_file_witness :
    monitor_writer_init [("run1.h5", [])] "run1_monitor.txt"
      = .error .fileNotFound :=
  c4_missing_monitor_file [("run1.h5", [])] "run1_monitor.txt" (by decide)

theorem backfill_stage (rows : List (List (Option Int))) :
    backfillDefaults ⟨["iev", "pixel", "first_cell_id", "t_tack", "t_cpu"], rows⟩
      = ⟨c18, rows.map (fun r => r ++ [some 0, some 0, some 0, some 0, some 0,
          some 0, some 0, some 0, some 0, some 0, some 0, some 0, some 0])⟩ := by
  simp [backfillDefaults, default_c, addCol, c18, List.map_map]

theorem astype_stage (rows : List (List (Option Int))) (c : String) (w : Nat)
    (i : Nat) (hi : List.findIdx? (fun x => x == c) c18 = some i) :
    astype ⟨c18, rows⟩ c w
      = ⟨c18, rows.map (fun r =>
          r.set i ((r.getD i none).map (fun v => v % ((2 : Int) ^ w))))⟩ := by
  unfold astype
  rw [hi]

theorem processDF_char (rows : List (List (Option Int))) :
    processDF ⟨["iev", "pixel", "first_cell_id", "t_tack", "t_cpu"], rows⟩
      = ⟨c18, List.insertionSort (rowLe c18) (rows.map procRow)⟩ := by
  unfold processDF downcastFloats
  rw [backfill_stage]
  rw [astype_stage _ "iev" 32 0 (by decide)]
  rw [astype_stage _ "pixel" 32 1 (by decide)]
  rw [astype_stage _ "first_cell_id" 16 2 (by decide)]
  rw [astype_stage _ "t_tack" 64 3 (by decide)]
  rw [astype_stage _ "t_event" 16 5 (by decide)]
  unfold sort_values
  simp only [List.map_map]
  congr 1

theorem concat_single (d : PDF) : concatPDF [d] = d := by
  obtain ⟨cs, rs⟩ := d
  simp [concatPDF, unionCols, reindexRows]

theorem orderedInsert_replicate_self {α : Type} (r : α → α → Prop)
    [DecidableRel r] (a : α) (h : r a a) (n : Nat) :
    List.orderedInsert r a (List.replicate n a) = a :: List.replicate n a := by
  cases n with
  | zero => rfl
  | succ m => rw [List.replicate_succ, List.orderedInsert, if_pos h]

theorem insertionSort_replicate {α : Type} (r : α → α → Prop)
    [DecidableRel r] (a : α) (h : r a a) (n : Nat) :
    List.insertionSort r (List.replicate n a) = List.replicate n a := by
  induction n with
  | zero => rfl
  | succ m ih =>
    rw [List.replicate_succ, List.insertionSort, ih,
      orderedInsert_replicate_self r a h, ← List.replicate_succ]

theorem insertionSort_replicate_append {α : Type} (r : α → α → Prop)
    [DecidableRel r] (a b : α) (haa : r a a) (hab : ¬ r a b) (n : Nat) :
    List.insertionSort r (List.replicate n a ++ [b])
      = b :: List.replicate n a := by
  induction n with
  | zero => rfl
  | succ m ih =>
    rw [List.replicate_succ, List.cons_append, List.insertionSort, ih,
      List.orderedInsert, if_neg hab, orderedInsert_replicate_self r a haa,
      ← List.replicate_succ]

theorem storeAppend_none (d : PDF) : storeAppend none d = some d := rfl

theorem finish_emptyC (b : Nat) (sd : Option PDF) (nb : Nat) :
    finish ⟨[], b, sd, nb⟩ = ⟨[], b, sd, nb⟩ := by
  unfold finish _append_to_file
  rw [if_pos rfl]

theorem storeAppend_some (a d : PDF) :
    storeAppend (some a) d
      = some { cols := a.cols, rows := a.rows ++ reindexRows a.cols d } := rfl

theorem append_event_flushC (b : Nat) (sd : Option PDF) (nb : Nat) (d : PDF)
    (h : 500000000 ≤ b + memory_usage d) :
    append_event ⟨[], b, sd, nb⟩ d
      = ⟨[], 0, storeAppend sd (processDF d),
          nb + memory_usage (processDF d)⟩ := by
  unfold append_event
  dsimp only
  rw [if_pos h]
  unfold _append_to_file
  rw [if_neg (by simp)]
  dsimp only
  rw [List.nil_append, concat_single]

theorem append_event_noflushC (dfl : List PDF) (b : Nat) (sd : Option PDF)
    (nb : Nat) (d : PDF) (h : b + memory_usage d < 500000000) :
    append_event ⟨dfl, b, sd, nb⟩ d = ⟨dfl ++ [d], b + memory_usage d, sd, nb⟩ := by
  unfold append_event
  dsimp only
  rw [if_neg (by omega)]

theorem finish_oneC (b : Nat) (sd : Option PDF) (nb : Nat) (d : PDF) :
    finish ⟨[d], b, sd, nb⟩
      = ⟨[], 0, storeAppend sd (processDF d),
          nb + memory_usage (processDF d)⟩ := by
  unfold finish _append_to_file
  rw [if_neg (by simp)]
  dsimp only
  rw [concat_single]

theorem memory_usage_eq (d : PDF) :
    memory_usage d = 128 + 8 * d.cols.length * d.rows.length := rfl

theorem c7dfA_rows_len : c7dfA.rows.length = 12500000 := by
  show (List.replicate 12500000 c7rowA).length = 12500000
  rw [List.length_replicate]

theorem c7dfAB_rows_len : c7dfAB.rows.length = 12500001 := by
  show (List.replicate 12500000 c7rowA ++ [c7rowB]).length = 12500001
  rw [List.length_append, List.length_replicate]
  rfl

theorem mu_c7dfA : memory_usage c7dfA = 500000128 := by
  rw [memory_usage_eq, c7dfA_rows_len,
    show c7dfA.cols.length = 5 from rfl]

theorem mu_c7dfB : memory_usage c7dfB = 168 := by
  rw [memory_usage_eq,
    show c7dfB.rows.length = 1 from rfl,
    show c7dfB.cols.length = 5 from rfl]

theorem mu_c7dfAB : memory_usage c7dfAB = 500000168 := by
  rw [memory_usage_eq, c7dfAB_rows_len,
    show c7dfAB.cols.length = 5 from rfl]

theorem diskAfterClose_eq (chunks : List PDF) :
    diskAfterClose chunks = (finish (runAppends chunks)).storeData := rfl

theorem runAppends_eq (chunks : List PDF) :
    runAppends chunks = chunks.foldl append_event dl1_init_buffer := rfl

theorem storeData_mk (dfl : List PDF) (b : Nat) (sd : Option PDF) (nb : Nat) :
    WState.storeData ⟨dfl, b, sd, nb⟩ = sd := rfl

theorem diskA_eval :
    diskAfterClose [c7dfA, c7dfB]
      = some ⟨c18, List.replicate 12500000 (procRow c7rowA)
          ++ [procRow c7rowB]⟩ := by
  rw [diskAfterClose_eq, runAppends_eq]
  rw [List.foldl_cons, List.foldl_cons, List.foldl_nil]
  rw [show dl1_init_buffer = (⟨[], 0, none, 0⟩ : WState) from rfl]
  rw [append_event_flushC 0 none 0 c7dfA (by rw [mu_c7dfA]; norm_num)]
  rw [storeAppend_none]
  rw [append_event_noflushC [] 0 (some (processDF c7dfA))
    (0 + memory_usage (processDF c7dfA)) c7dfB (by rw [mu_c7dfB]; norm_num)]
  rw [show ([] : List PDF) ++ [c7dfB] = [c7dfB] from rfl]
  rw [finish_oneC]
  rw [storeAppend_some]
  rw [show c7dfA = (⟨["iev", "pixel", "first_cell_id", "t_tack", "t_cpu"],
    List.replicate 12500000 c7rowA⟩ : PDF) from rfl]
  rw [show c7dfB = (⟨["iev", "pixel", "first_cell_id", "t_tack", "t_cpu"],
    [c7rowB]⟩ : PDF) from rfl]
  rw [processDF_char, processDF_char]
  dsimp only
  rw [List.map_replicate]
  rw [insertionSort_replicate (rowLe c18) (procRow c7rowA) (by decide)]
  rw [show List.insertionSort (rowLe c18) (List.map procRow [c7rowB])
    = [procRow c7rowB] from rfl]
  rw [show reindexRows c18 ⟨c18, [procRow c7rowB]⟩
    = [procRow c7rowB] from rfl]

theorem diskB_eval :
    diskAfterClose [c7dfAB]
      = some ⟨c18, procRow c7rowB
          :: List.replicate 12500000 (procRow c7rowA)⟩ := by
  rw [diskAfterClose_eq, runAppends_eq]
  rw [List.foldl_cons, List.foldl_nil]
  rw [show dl1_init_buffer = (⟨[], 0, none, 0⟩ : WState) from rfl]
  rw [append_event_flushC 0 none 0 c7dfAB (by rw [mu_c7dfAB]; norm_num)]
  rw [show finish (⟨[], 0, storeAppend none (processDF c7dfAB),
      0 + memory_usage (processDF c7dfAB)⟩ : WState)
    = (⟨[], 0, storeAppend none (processDF c7dfAB),
      0 + memory_usage (processDF c7dfAB)⟩ : WState) from
    finish_emptyC 0 (storeAppend none (processDF c7dfAB))
      (0 + memory_usage (processDF c7dfAB))]
  rw [storeData_mk]
  rw [storeAppend_none]
  rw [show c7dfAB = (⟨["iev", "pixel", "first_cell_id", "t_tack", "t_cpu"],
    List.replicate 12500000 c7rowA ++ [c7rowB]⟩ : PDF) from rfl]
  rw [processDF_char]
  rw [List.map_append, List.map_replicate]
  rw [show List.map procRow [c7rowB] = [procRow c7rowB] from rfl]
  rw [insertionSort_replicate_append (rowLe c18) (procRow c7rowA)
    (procRow c7rowB) (by decide) (by decide)]

/-- C7 counterexample: flushing is NOT independent of how records are
chunked into append calls.  The same records (identical concatenated row
sequence, first conjunct) appended as two calls — a 12500000-row frame
(crossing the 0.5E9-byte estimate, so it flushes alone and is sorted
alone) followed by a one-row frame with a smaller (iev, pixel) key —
produce different on-disk contents than one combined append call, where
the single flush sorts the small-key row to the front. -/
theorem c7_counterexample :
    ((([c7dfA, c7dfB].map PDF.rows).flatten
        = ([c7dfAB].map PDF.rows).flatten) ∧
      diskAfterClose [c7dfA, c7dfB] ≠ diskAfterClose [c7dfAB]) := by
  constructor
  · rw [List.map_cons, List.map_cons, List.map_nil, List.map_cons,
      List.map_nil, List.flatten_cons, List.flatten_cons, List.flatten_nil,
      List.flatten_cons, List.flatten_nil, List.append_nil, List.append_nil]
    rw [show c7dfA.rows = List.replicate 12500000 c7rowA from rfl]
    rw [show c7dfB.rows = [c7rowB] from rfl]
    rw [show c7dfAB.rows = List.replicate 12500000 c7rowA ++ [c7rowB] from rfl]
  · rw [diskA_eval, diskB_eval]
    intro h
    injection h with h1
    injection h1 with hcols hrows
    have hh := congrArg List.head? hrows
    rw [show (12500000 : Nat) = 12499999 + 1 by norm_num,
      List.replicate_succ, List.cons_append, List.head?_cons,
      List.head?_cons] at hh
    injection hh with hab
    exact absurd hab (by decide)

/-- C5 evidence (code bug): flushing a buffer whose only frame carries just
the required integer columns produces a frame whose columns are exactly
`c18`: the bogus `"trbaseline_start_mean"` column (from the missing comma
on source line 127) is present and back-filled, while the rise-time column
`"tr"` and the `"baseline_start_mean"` baseline statistic are NOT present
in the flushed frame, contradicting the documented intent that every
declared feature column is back-filled with 0.0. -/
theorem c5_flush_default_columns :
    ((diskAfterClose [⟨["iev", "pixel", "first_cell_id", "t_tack", "t_cpu"],
        [[some 0, some 0, some 0, some 0, some 0]]⟩]).map PDF.cols).getD []
      = c18 ∧
      "trbaseline_start_mean" ∈ c18 ∧ "tr" ∉ c18 ∧
      "baseline_start_mean" ∉ c18 := by
  decide

theorem append_event_noflushW (w : WState) (d : PDF)
    (h : w.df_list_n_bytes + memory_usage d < 500000000) :
    append_event w d
      = { w with
          df_list := w.df_list ++ [d]
          df_list_n_bytes := w.df_list_n_bytes + memory_usage d } := by
  unfold append_event
  dsimp only
  rw [if_neg (by omega)]

theorem foldl_append_event_noflush (ch : List PDF) :
    ∀ (w : WState),
      w.df_list_n_bytes + (ch.map memory_usage).sum < 500000000 →
      ch.foldl append_event w
        = { w with
            df_list := w.df_list ++ ch
            df_list_n_bytes :=
              w.df_list_n_bytes + (ch.map memory_usage).sum } := by
  induction ch with
  | nil =>
    intro w h
    obtain ⟨a, b, c, d⟩ := w
    simp
  | cons dfirst rest ih =>
    rintro ⟨a, b, c, d⟩ h
    simp only [List.map_cons, List.sum_cons] at h
    rw [List.foldl_cons]
    rw [append_event_noflushC a b c d dfirst (by omega)]
    rw [ih ⟨a ++ [dfirst], b + memory_usage dfirst, c, d⟩ (by simp only; omega)]
    simp only [List.map_cons, List.sum_cons]
    simp only [List.append_assoc, List.singleton_append, Nat.add_assoc]

theorem addNewCols_subset (acc : List String) :
    ∀ (cs : List String), (∀ c ∈ cs, c ∈ acc) → addNewCols acc cs = acc := by
  intro cs
  induction cs with
  | nil => intro _; rfl
  | cons c rest ih =>
    intro h
    rw [addNewCols, if_pos (h c (List.mem_cons_self c rest))]
    exact ih (fun x hx => h x (List.mem_cons_of_mem c hx))

theorem unionCols_uniform (c0 : List String) (d : PDF) (ds : List PDF)
    (hd : d.cols = c0) (hds : ∀ e ∈ ds, e.cols = c0) :
    unionCols (d :: ds) = c0 := by
  rw [unionCols, hd]
  induction ds with
  | nil => rfl
  | cons e es ih =>
    rw [List.foldl_cons, hds e (List.mem_cons_self e es)]
    rw [addNewCols_subset c0 c0 (fun c hc => hc)]
    exact ih (fun x hx => hds x (List.mem_cons_of_mem e hx))

theorem concat_uniform (c0 : List String) (d : PDF) (ds : List PDF)
    (hd : d.cols = c0) (hds : ∀ e ∈ ds, e.cols = c0) :
    concatPDF (d :: ds) = ⟨c0, ((d :: ds).map PDF.rows).flatten⟩ := by
  unfold concatPDF
  rw [unionCols_uniform c0 d ds hd hds]
  congr 1
  congr 1
  refine List.map_congr_left ?_
  intro e he
  unfold reindexRows
  rw [if_pos]
  rcases List.mem_cons.mp he with h | h
  · rw [h, hd]
  · exact hds e h

theorem diskAfterClose_uniform (c0 : List String) (ch : List PDF)
    (hc : ∀ d ∈ ch, d.cols = c0)
    (hb : (ch.map memory_usage).sum < 500000000) :
    diskAfterClose ch
      = if ch = [] then none
        else some (processDF ⟨c0, (ch.map PDF.rows).flatten⟩) := by
  rw [diskAfterClose_eq, runAppends_eq]
  rw [foldl_append_event_noflush ch dl1_init_buffer
    (by show 0 + (ch.map memory_usage).sum < 500000000; omega)]
  cases ch with
  | nil =>
    rw [if_pos rfl]
    rfl
  | cons d ds =>
    rw [if_neg (by simp)]
    unfold finish _append_to_file
    rw [if_neg (by simp [dl1_init_buffer])]
    dsimp only [dl1_init_buffer]
    rw [List.nil_append]
    rw [concat_uniform c0 d ds (hc d (List.mem_cons_self d ds))
      (fun e he => hc e (List.mem_cons_of_mem d he))]
    rw [storeAppend_none]

/-- C7 amended: flushing is independent of chunking as long as no
intermediate flush fires, i.e. the combined byte estimate of all appended
frames stays below the 0.5E9 threshold until close.  Two chunkings of the
same records (same shared column layout, same concatenated row sequence,
each append call carrying at least one row) then produce identical on-disk
table contents.  (The counterexample shows this fails once a chunking
crosses the threshold mid-stream.) -/
theorem c7_amended (c0 : List String) (ch1 ch2 : List PDF)
    (hc1 : ∀ d ∈ ch1, d.cols = c0) (hc2 : ∀ d ∈ ch2, d.cols = c0)
    (hr1 : ∀ d ∈ ch1, d.rows ≠ []) (hr2 : ∀ d ∈ ch2, d.rows ≠ [])
    (hj : (ch1.map PDF.rows).flatten = (ch2.map PDF.rows).flatten)
    (hb1 : (ch1.map memory_usage).sum < 500000000)
    (hb2 : (ch2.map memory_usage).sum < 500000000) :
    diskAfterClose ch1 = diskAfterClose ch2 := by
  have empty_iff : ∀ (ch : List PDF), (∀ d ∈ ch, d.rows ≠ []) →
      ((ch.map PDF.rows).flatten = [] ↔ ch = []) := by
    intro ch hr
    constructor
    · intro hfl
      cases ch with
      | nil => rfl
      | cons d ds =>
        exfalso
        rw [List.map_cons, List.flatten_cons] at hfl
        exact hr d (List.mem_cons_self d ds)
          (List.append_eq_nil.mp hfl).1
    · intro h; rw [h]; rfl
  rw [diskAfterClose_uniform c0 ch1 hc1 hb1,
    diskAfterClose_uniform c0 ch2 hc2 hb2]
  by_cases h1 : ch1 = []
  · have h2 : ch2 = [] := by
      refine (empty_iff ch2 hr2).mp ?_
      rw [← hj, (empty_iff ch1 hr1).mpr h1]
    rw [if_pos h1, if_pos h2]
  · have h2 : ch2 ≠ [] := by
      intro hc
      exact h1 ((empty_iff ch1 hr1).mp
        (by rw [hj, (empty_iff ch2 hr2).mpr hc]))
    rw [if_neg h1, if_neg h2, hj]

/-- Witness for C7 amended: two records appended as two calls versus one
call, below the flush threshold. -/
theorem c7_amended_witness :
    diskAfterClose
        [⟨["iev", "pixel", "first_cell_id", "t_tack", "t_cpu"],
          [[some 1, some 0, some 0, some 0, some 0]]⟩,
          ⟨["iev", "pixel", "first_cell_id", "t_tack", "t_cpu"],
            [[some 0, some 0, some 0, some 0, some 0]]⟩]
      = diskAfterClose
          [⟨["iev", "pixel", "first_cell_id", "t_tack", "t_cpu"],
            [[some 1, some 0, some 0, some 0, some 0],
              [some 0, some 0, some 0, some 0, some 0]]⟩] :=
  c7_amended ["iev", "pixel", "first_cell_id", "t_tack", "t_cpu"]
    _ _ (by decide) (by decide) (by decide) (by decide) (by decide)
    (by decide) (by decide)

/-- C8: `load_entire_table` with `force=False` fails with `MemoryError`
exactly when the recorded byte count exceeds 8E9; with byte count at most
8E9, or with `force=True` in every case, it returns the whole table, whose
row count `n_rows` is the sum of all appended batch row counts. -/
theorem c8_load_entire_table (batches : List (List (List (Option Int))))
    (nb : Int) (force : Bool) :
    (load_entire_table (tableFromAppends batches nb) force
        = .error "MemoryError" ↔ nb > 8000000000 ∧ force = false) ∧
      ((nb ≤ 8000000000 ∨ force = true) →
        load_entire_table (tableFromAppends batches nb) force
          = .ok (tableFromAppends batches nb).rows) ∧
      n_rows (tableFromAppends batches nb)
        = (batches.map List.length).sum := by
  refine ⟨?_, ?_, ?_⟩
  · unfold load_entire_table
    split
    · next h => exact iff_of_true rfl h
    · next h => exact iff_of_false (by simp) h
  · intro h
    unfold load_entire_table tableFromAppends
    rw [if_neg]
    rintro ⟨hgt, hff⟩
    rcases h with h | h
    · dsimp only at hgt; omega
    · rw [h] at hff; cases hff
  · unfold n_rows tableFromAppends
    exact List.length_flatten _

/-- Witness for C8 at a concrete two-batch table. -/
theorem c8_load_entire_table_witness :
    load_entire_table
        (tableFromAppends [[[some 1]], [[some 2], [some 3]]] 100) false
      = .ok (tableFromAppends [[[some 1]], [[some 2], [some 3]]] 100).rows ∧
      n_rows (tableFromAppends [[[some 1]], [[some 2], [some 3]]] 100) = 3 :=
  ⟨(c8_load_entire_table [[[some 1]], [[some 2], [some 3]]] 100 false).2.1
      (Or.inl (by norm_num)),
    by
      rw [(c8_load_entire_table [[[some 1]], [[some 2], [some 3]]] 100
        false).2.2]
      rfl⟩

/-- C10: opening a writer on a path deletes any existing file there first
(`if exists(dl1_path): remove(dl1_path)`, lines 94-95), then creates a
fresh store: after construction the store at the path has no tables, so no
records from a previous run at the same path survive. -/
theorem c10_fresh_store (fs : List (String × List (String × PDF)))
    (dl1_path : String) :
    (dl1writer_open fs dl1_path).lookup dl1_path = some [] := by
  unfold dl1writer_open
  dsimp only
  simp [List.lookup]

end CHECLabPy
